import Mathlib

/-!
Verification of the vtest renderer sync subsystem (src/vtest/vtest_renderer.c).

This file shallowly embeds the data model and the operations of the
command-dispatch and timeline-synchronization core of the vtest server:
syncs (reference-counted 64-bit timelines), sync queues (FIFO lists of
pending signal batches released by renderer fences), sync waits
(threshold waits notified through an event fd), the SUBMIT_CMD2 batch
path, protocol negotiation and unref handlers.

Modelling conventions:
- C pointers to heap objects are replaced by numeric identities
  (`sync_id`, `submit_id`); pointer comparison becomes id comparison.
  Live objects have pairwise distinct ids (ids are assigned from a
  monotonic process counter and free-list reuse never leaves two live
  objects with the same id).
- The sync heap is a list of `SyncObj` records; `vtest_unref_sync`
  decrements the refcount, an object with refcount 0 represents an
  entry on the process free list.
- A NULL slot pointer in `vtest_sync_wait.syncs[i]` is represented by
  the slot's `signaled` flag; the (ghost) id and threshold kept in a
  signaled slot are never read by any transition, matching the C code
  which skips NULL slots.
- The monotonic clock, the event-fd allocator and the opaque rendering
  library (`virgl_renderer_submit_cmd`, `virgl_renderer_context_create_fence`)
  are external collaborators per the spec; they appear as explicit
  parameters (`now`, `fd`) and boolean result oracles, and renderer
  invocations are recorded in an explicit call trace.
- `util_hash_table` is declared outside this tree. Modelled from the
  spec: the per-context resource and sync tables are maps from u32
  handles to records ("resources: Map<u32,Resource>, syncs: Map<u32,Sync>");
  `get` yields the mapped value or NULL, `remove` deletes the entry and
  runs the destroy callback and is a no-op on an absent key.
- Writes to client fds are assumed to succeed; the fds written with the
  8-byte ready token are collected in a `notifs` output list.
- u64 timeline values never overflow in the modelled operations (they
  are only compared and assigned), so they are plain `Nat`.  The u32
  offset arithmetic of SUBMIT_CMD2 bounds checks can wrap, so it is
  taken mod 2^32 exactly where the C expressions are 32-bit.
-/

/-! ### Data model and operations -/

/-- Error kinds of the handlers (§7): the C code returns `-EINVAL`,
`-EEXIST`, `-ENOMEM`, `-ENODEV`; we use the spec's names. -/
inductive VErr where
  | Invalid
  | Exists
  | OutOfMemory
  | NoDevice
deriving DecidableEq, Repr

deriving instance DecidableEq for Except

/-- `struct vtest_sync`: id, refcount and 64-bit value.  An object with
`refcount = 0` stands for a record on `renderer.free_syncs`. -/
structure SyncObj where
  sync_id : Nat
  refcount : Nat
  value : Nat
deriving DecidableEq, Repr

/-- One entry of a wait's `syncs[i]` / `values[i]` arrays.  `signaled = true`
represents `syncs[i] == NULL` (the slot was already signaled and unreffed);
the id and threshold kept in a signaled slot are ghost data never read by
any transition. -/
structure WaitSlot where
  sync : Nat
  threshold : Nat
  signaled : Bool
deriving DecidableEq, Repr

/-- `struct vtest_sync_wait`.  `slots` are the entries stored at
registration time (only the then-unsignaled requests are stored, so
`wait->count` is `slots.length`); `signaled_count` counts slots marked
since. -/
structure SyncWait where
  fd : Nat
  flags : Nat
  valid_before : Nat
  slots : List WaitSlot
  signaled_count : Nat
deriving DecidableEq, Repr

/-- `struct vtest_sync_queue_submit`: identity of the allocation plus the
(sync id, value) pairs whose syncs it holds strong references to. -/
structure SQSubmit where
  submit_id : Nat
  pairs : List (Nat × Nat)
deriving DecidableEq, Repr

/-- The part of the state read and written by `vtest_signal_sync`: the
sync heap and the concatenation of the active contexts' `sync_waits`
lists (the C walk visits every context's list in order and treats each
wait identically, so the context boundaries carry no information). -/
structure SyncSt where
  syncs : List SyncObj
  waits : List SyncWait
deriving DecidableEq, Repr

/-- Value of the sync with id `s` (0 if no such object). -/
def syncValue (h : List SyncObj) (s : Nat) : Nat :=
  ((h.find? (fun o => o.sync_id == s)).map SyncObj.value).getD 0

/-- Refcount of the sync with id `s` (0 if no such object). -/
def syncRefcount (h : List SyncObj) (s : Nat) : Nat :=
  ((h.find? (fun o => o.sync_id == s)).map SyncObj.refcount).getD 0

/-- Whether a sync object with id `s` exists on the heap. -/
def hasSync (h : List SyncObj) (s : Nat) : Bool :=
  (h.find? (fun o => o.sync_id == s)).isSome

/-- `sync->value = value`. -/
def setSyncValue (h : List SyncObj) (s v : Nat) : List SyncObj :=
  h.map (fun o => if o.sync_id == s then { o with value := v } else o)

/-- `vtest_ref_sync`: increment the refcount. -/
def refSync (h : List SyncObj) (s : Nat) : List SyncObj :=
  h.map (fun o => if o.sync_id == s then { o with refcount := o.refcount + 1 } else o)

/-- `vtest_unref_sync`: decrement the refcount; hitting 0 moves the
record to the free list, which we represent by keeping it with
refcount 0. -/
def unrefSync (h : List SyncObj) (s : Nat) : List SyncObj :=
  h.map (fun o => if o.sync_id == s then { o with refcount := o.refcount - 1 } else o)

/-- Apply `vtest_ref_sync` for each id in order. -/
def applyRefs (h : List SyncObj) (ids : List Nat) : List SyncObj :=
  ids.foldl refSync h

/-- Apply `vtest_unref_sync` for each id in order. -/
def applyUnrefs (h : List SyncObj) (ids : List Nat) : List SyncObj :=
  ids.foldl unrefSync h

/-- `vtest_gettime(offset_ms)`: monotonic time in ns plus the timeout;
an offset above `INT32_MAX` yields `UINT64_MAX`.  The current clock
reading is the explicit parameter `now`. -/
def vtest_gettime (now offset_ms : Nat) : Nat :=
  if offset_ms > 2 ^ 31 - 1 then 2 ^ 64 - 1 else now + 1000000 * offset_ms

/-- Whether `flags & VCMD_SYNC_WAIT_FLAG_ANY` is set (bit 0, §6). -/
def anyFlagSet (flags : Nat) : Bool := flags % 2 == 1

/-- The inner `for (i = 0; i < wait->count; i++)` loop of
`vtest_signal_sync`: scan the slot array for non-NULL entries of sync
`s` whose threshold is reached by `v`; mark each (NULL the pointer,
bump `signaled_count`) and stop as soon as the wait becomes ready
(`signaled_count == wait->count`, or the ANY flag).  Returns the new
slot array, the new `signaled_count`, and `is_ready`.  `cnt` is
`wait->count` (the full array length) and `anyf` the ANY flag. -/
def scanSlots (s v cnt : Nat) (anyf : Bool) :
    List WaitSlot → Nat → List WaitSlot × Nat × Bool
  | [], sc => ([], sc, false)
  | sl :: rest, sc =>
    if !sl.signaled && sl.sync == s && decide (sl.threshold ≤ v) then
      let sc' := sc + 1
      if sc' == cnt || anyf then
        ({ sl with signaled := true } :: rest, sc', true)
      else
        let r := scanSlots s v cnt anyf rest sc'
        ({ sl with signaled := true } :: r.1, r.2.1, r.2.2)
    else
      let r := scanSlots s v cnt anyf rest sc
      (sl :: r.1, r.2.1, r.2.2)

/-- Ids of the non-NULL slots of a wait (the syncs `vtest_free_sync_wait`
unrefs). -/
def liveSlotIds (slots : List WaitSlot) : List Nat :=
  (slots.filter (fun sl => !sl.signaled)).map WaitSlot.sync

/-- Processing of one wait by the `vtest_signal_sync` walk: expired
waits (`valid_before < now`) are removed and freed with no write to
their fd; otherwise the slots are scanned, and a wait that became ready
is detached, its fd written and the wait freed.  Returns the kept
(possibly mutated) wait if any, the sync ids unreffed (marks plus, on
free, the remaining live slots), and the fd written if any. -/
def processWait (s v now : Nat) (w : SyncWait) :
    Option SyncWait × List Nat × Option Nat :=
  if w.valid_before < now then
    (none, liveSlotIds w.slots, none)
  else
    let r := scanSlots s v w.slots.length (anyFlagSet w.flags) w.slots w.signaled_count
    let marks := List.replicate (r.2.1 - w.signaled_count) s
    if r.2.2 then
      (none, marks ++ liveSlotIds r.1, some w.fd)
    else
      (some { w with slots := r.1, signaled_count := r.2.1 }, marks, none)

/-- The wait-list walk of `vtest_signal_sync` over every active context:
returns the surviving wait list, the sync ids unreffed along the way and
the fds written with the ready token, in walk order. -/
def signalWaits (s v now : Nat) : List SyncWait → List SyncWait × List Nat × List Nat
  | [] => ([], [], [])
  | w :: rest =>
    let p := processWait s v now w
    let r := signalWaits s v now rest
    (p.1.toList ++ r.1, p.2.1 ++ r.2.1, (p.2.2).toList ++ r.2.2)

/-- `vtest_signal_sync(sync, value)` (vtest_renderer.c:1690).  If the
current value already reaches `value` the value is still assigned but
the function returns without walking the waits; otherwise the value is
assigned and every active context's wait list is walked.  Returns the
new state and the fds written with the ready token. -/
def vtest_signal_sync (st : SyncSt) (s v now : Nat) : SyncSt × List Nat :=
  if v ≤ syncValue st.syncs s then
    ({ st with syncs := setSyncValue st.syncs s v }, [])
  else
    let syncs1 := setSyncValue st.syncs s v
    let r := signalWaits s v now st.waits
    (⟨applyUnrefs syncs1 r.2.1, r.1⟩, r.2.2)

/-- One `SyncQueueSubmit` being released: `for (i = 0; i < submit->count; i++)
{ vtest_signal_sync(submit->syncs[i], submit->values[i]); vtest_unref_sync(submit->syncs[i]); }`
followed by `free(submit)`.  Returns the new state and the written fds. -/
def signalSubmit (now : Nat) (st : SyncSt) (sub : SQSubmit) : SyncSt × List Nat :=
  sub.pairs.foldl
    (fun acc p =>
      let r := vtest_signal_sync acc.1 p.1 p.2 now
      (⟨unrefSync r.1.syncs p.1, r.1.waits⟩, acc.2 ++ r.2))
    (st, [])

/-- Release a list of submits in order, accumulating written fds. -/
def drainSubmits (now : Nat) (st : SyncSt) : List SQSubmit → SyncSt × List Nat
  | [] => (st, [])
  | sub :: rest =>
    let r := signalSubmit now st sub
    let r2 := drainSubmits now r.1 rest
    (r2.1, r.2 ++ r2.2)

/-- `vtest_signal_sync_queue(queue, to_submit)` (vtest_renderer.c:1740):
walk the FIFO queue popping each entry, signal and unref its pairs, free
it, and stop after the entry whose pointer identity equals the cookie's.
Returns the new state, the remaining queue and the written fds. -/
def vtest_signal_sync_queue (now : Nat) (st : SyncSt) :
    List SQSubmit → Nat → SyncSt × List SQSubmit × List Nat
  | [], _ => (st, [], [])
  | sub :: rest, to_id =>
    let r := signalSubmit now st sub
    if sub.submit_id == to_id then
      (r.1, rest, r.2)
    else
      let r2 := vtest_signal_sync_queue now r.1 rest to_id
      (r2.1, r2.2.1, r.2 ++ r2.2.2)

/-- `vtest_write_context_fence` (vtest_renderer.c:171): the renderer's
context-fence callback casts the cookie back to the submit and releases
`submit->sync_queue` up to and including it. -/
def vtest_write_context_fence (now : Nat) (st : SyncSt) (queue : List SQSubmit)
    (cookie : Nat) : SyncSt × List SQSubmit × List Nat :=
  vtest_signal_sync_queue now st queue cookie

/-- Per-context sync table: the set of handles currently mapped
(each map entry holds one strong reference to the heap object). -/
def lookupSync (table : List Nat) (h : List SyncObj) (sid : Nat) : Option SyncObj :=
  if sid ∈ table then h.find? (fun o => o.sync_id == sid) else none

/-- The registration loop of `vtest_sync_wait_init` (vtest_renderer.c:1908):
for each requested `(sync_id, threshold)`, look the sync up; a missing id
stops the loop; a pre-signaled sync (`sync->value >= threshold`) is
skipped; otherwise the slot is stored with a strong reference.  Returns
the heap with the references taken, the stored slots in order, and
whether every id was found. -/
def waitInitLoop (table : List Nat) (h : List SyncObj) :
    List (Nat × Nat) → List SyncObj × List WaitSlot × Bool
  | [] => (h, [], true)
  | (sid, t) :: rest =>
    match lookupSync table h sid with
    | none => (h, [], false)
    | some o =>
      if o.value < t then
        let r := waitInitLoop table (refSync h sid) rest
        (r.1, ⟨sid, t, false⟩ :: r.2.1, r.2.2)
      else
        waitInitLoop table h rest

/-- `vtest_sync_wait_init` (vtest_renderer.c:1885): allocate the event fd
(given here as the fresh `fd`; allocation failure is out of scope),
compute the deadline, and run the registration loop; on a missing id the
partially built wait is freed (the taken references dropped) and the
call fails with `Exists`. -/
def vtest_sync_wait_init (table : List Nat) (h : List SyncObj)
    (flags timeout : Nat) (reqs : List (Nat × Nat)) (now fd : Nat) :
    Except VErr SyncWait × List SyncObj :=
  let r := waitInitLoop table h reqs
  if r.2.2 then
    (.ok ⟨fd, flags, vtest_gettime now timeout, r.2.1, 0⟩, r.1)
  else
    (.error .Exists, applyUnrefs r.1 (r.2.1.map WaitSlot.sync))

/-- Result of a `SYNC_WAIT` command. -/
structure WaitOut where
  res : Except VErr Unit
  heap : List SyncObj
  waits : List SyncWait
  notifs : List Nat
  queued : Bool
deriving DecidableEq, Repr

/-- `vtest_sync_wait` (vtest_renderer.c:1935), after the payload has been
read and decoded into `flags`, `timeout` and the `(sync_id, threshold)`
requests: initialize the wait, compute readiness
(`!wait->count || (ANY && wait->count < sync_count)`), write the ready
token when ready, send the reply and the fd (I/O assumed to succeed),
then free the wait unless it is to be queued (`ret || is_ready ||
!timeout`), else append it to the context's wait list. -/
def vtest_sync_wait (table : List Nat) (h : List SyncObj) (waits : List SyncWait)
    (flags timeout : Nat) (reqs : List (Nat × Nat)) (now fd : Nat) : WaitOut :=
  match vtest_sync_wait_init table h flags timeout reqs now fd with
  | (.error e, h') => ⟨.error e, h', waits, [], false⟩
  | (.ok w, h') =>
    let is_ready := w.slots.isEmpty || (anyFlagSet w.flags && w.slots.length < reqs.length)
    let notifs := if is_ready then [fd] else []
    if is_ready || timeout == 0 then
      ⟨.ok (), applyUnrefs h' (liveSlotIds w.slots), waits, notifs, false⟩
    else
      ⟨.ok (), h', waits ++ [w], notifs, true⟩

/-- A renderer invocation made on behalf of batch number `batch_index`
of a SUBMIT_CMD2 frame. -/
inductive RCall where
  | submitCmd (batch_index : Nat)
  | createFence (batch_index : Nat)
deriving DecidableEq, Repr

/-- Decoded SUBMIT_CMD2 batch header (`struct vcmd_submit_cmd2_batch`);
every field is a u32 of the frame (`sync_queue_id` is not needed by any
claim). -/
structure Cmd2Batch where
  flags : Nat
  cmd_offset : Nat
  cmd_size : Nat
  sync_offset : Nat
  sync_count : Nat
  sync_queue_index : Nat
deriving DecidableEq, Repr

/-- The per-batch validation of `vtest_submit_cmd2` (vtest_renderer.c:2121):
`batch.cmd_offset + batch.cmd_size > length_dw || batch.sync_offset +
batch.sync_count * 3 > length_dw || batch.sync_queue_index >= 64`.
The sums and the product are computed in uint32 arithmetic and wrap. -/
def cmd2BatchOutOfBounds (b : Cmd2Batch) (length_dw : Nat) : Bool :=
  decide (length_dw < (b.cmd_offset + b.cmd_size) % 2 ^ 32) ||
  decide (length_dw < (b.sync_offset + b.sync_count * 3 % 2 ^ 32) % 2 ^ 32) ||
  decide (64 ≤ b.sync_queue_index)

/-- State touched by the SUBMIT_CMD2 path: the sync heap, the current
context's sync table and sync queues, and the wait lists (walked when a
batch signals immediately). -/
structure BatchSt where
  heap : List SyncObj
  table : List Nat
  queues : List (List SQSubmit)
  waits : List SyncWait
deriving DecidableEq, Repr

/-- Result of a batch or of a whole SUBMIT_CMD2 frame. -/
structure Cmd2Out where
  res : Except VErr Unit
  st : BatchSt
  calls : List RCall
  notifs : List Nat
deriving DecidableEq, Repr

/-- The reference-collecting loop of `vtest_submit_cmd2_batch` for a
batch with the SYNC_QUEUE flag: look up each `(sync_id, value)`, stop on
a missing id, otherwise take a strong reference and store the pair into
the submit.  Returns the heap with the references, the stored pairs and
whether every id was found. -/
def collectRefs (table : List Nat) (h : List SyncObj) :
    List (Nat × Nat) → List SyncObj × List (Nat × Nat) × Bool
  | [] => (h, [], true)
  | (sid, v) :: rest =>
    match lookupSync table h sid with
    | none => (h, [], false)
    | some _ =>
      let r := collectRefs table (refSync h sid) rest
      (r.1, (sid, v) :: r.2.1, r.2.2)

/-- The immediate-signal loop of `vtest_submit_cmd2_batch` for a batch
without the SYNC_QUEUE flag: look up each `(sync_id, value)`, stop on a
missing id, otherwise `vtest_signal_sync` it at once. -/
def signalRefs (table : List Nat) (st : SyncSt) (now : Nat) :
    List (Nat × Nat) → SyncSt × List Nat × Bool
  | [] => (st, [], true)
  | (sid, v) :: rest =>
    match lookupSync table st.syncs sid with
    | none => (st, [], false)
    | some _ =>
      let r := vtest_signal_sync st sid v now
      let r2 := signalRefs table r.1 now rest
      (r2.1, r.2 ++ r2.2.1, r2.2.2)

/-- Append a submit to queue number `i` (`list_addtail(&submit->head,
&queue->submits)`). -/
def appendQueue (qs : List (List SQSubmit)) (i : Nat) (sub : SQSubmit) :
    List (List SQSubmit) :=
  qs.mapIdx (fun j q => if j == i then q ++ [sub] else q)

/-- `vtest_submit_cmd2_batch` (vtest_renderer.c:2006).  `submit_ok` and
`fence_ok` are the results of the opaque renderer calls
`virgl_renderer_submit_cmd` and `virgl_renderer_context_create_fence`;
`sub_id` is the identity of the freshly malloc'd submit; `syncrefs` are
the `(sync_id, value)` pairs decoded from the frame's sync words.
The renderer command submission happens first; on failure `Invalid` with
no sync side effects.  With no syncs, done.  With the SYNC_QUEUE flag
the references are collected into a submit; a missing id rolls the
references back, frees the submit and fails with `Exists`; then the
context fence is created (a failure frees the submit likewise) and the
submit is appended to the selected queue.  Without the flag each sync is
signaled immediately, a missing id failing with `Exists` after the
earlier signals took effect. -/
def vtest_submit_cmd2_batch (idx : Nat) (st : BatchSt) (b : Cmd2Batch)
    (syncrefs : List (Nat × Nat)) (submit_ok fence_ok : Bool)
    (now sub_id : Nat) : Cmd2Out :=
  if !submit_ok then
    ⟨.error .Invalid, st, [.submitCmd idx], []⟩
  else if syncrefs.isEmpty then
    ⟨.ok (), st, [.submitCmd idx], []⟩
  else if b.flags % 2 == 1 then
    let r := collectRefs st.table st.heap syncrefs
    if !r.2.2 then
      ⟨.error .Exists, { st with heap := applyUnrefs r.1 (r.2.1.map Prod.fst) },
        [.submitCmd idx], []⟩
    else if !fence_ok then
      ⟨.error .Invalid, { st with heap := applyUnrefs r.1 (r.2.1.map Prod.fst) },
        [.submitCmd idx, .createFence idx], []⟩
    else
      ⟨.ok (), { st with heap := r.1,
                         queues := appendQueue st.queues b.sync_queue_index ⟨sub_id, r.2.1⟩ },
        [.submitCmd idx, .createFence idx], []⟩
  else
    let r := signalRefs st.table ⟨st.heap, st.waits⟩ now syncrefs
    ⟨if r.2.2 then .ok () else .error .Exists,
      { st with heap := r.1.syncs, waits := r.1.waits }, [.submitCmd idx], r.2.1⟩

/-- The per-batch loop of `vtest_submit_cmd2` (vtest_renderer.c:2107):
decode each batch, reject it with `Invalid` when its offsets or queue
index are out of bounds — before any renderer call for it — and
otherwise run the batch, stopping at the first failure.  Each list
element carries the decoded batch, its decoded sync pairs, the two
renderer oracles and the submit identity. -/
def vtest_submit_cmd2 (st : BatchSt) (length_dw now idx : Nat) :
    List (Cmd2Batch × List (Nat × Nat) × Bool × Bool × Nat) → Cmd2Out
  | [] => ⟨.ok (), st, [], []⟩
  | (b, refs, sok, fok, sub_id) :: rest =>
    if cmd2BatchOutOfBounds b length_dw then
      ⟨.error .Invalid, st, [], []⟩
    else
      let r := vtest_submit_cmd2_batch idx st b refs sok fok now sub_id
      match r.res with
      | .error e => ⟨.error e, r.st, r.calls, r.notifs⟩
      | .ok _ =>
        let r2 := vtest_submit_cmd2 r.st length_dw now (idx + 1) rest
        ⟨r2.res, r2.st, r.calls ++ r2.calls, r.notifs ++ r2.notifs⟩

/-- `vtest_protocol_version` (vtest_renderer.c:707) as a function of the
guest's requested version, the server's `VTEST_PROTOCOL_VERSION`
(declared in the protocol header), the availability of shared memory,
multi-client mode and the context's current `protocol_version`.
Returns the handler result, the context's `protocol_version` afterwards
and the version echoed in the response (none when the handler fails
before replying). -/
def vtest_protocol_version (server_version guest : Nat) (shm_ok multi : Bool)
    (cur : Nat) : Except VErr Unit × Nat × Option Nat :=
  let v1 := min guest server_version
  let v2 := if v1 == 1 then 0 else v1
  let v3 := if !shm_ok then 0 else v2
  if multi && decide (v3 < 3) then
    (.error .Invalid, cur, none)
  else
    (.ok (), v3, some v3)

/-- A resource record (`struct vtest_resource`); only the identity
matters to the claims here. -/
structure VRes where
  res_id : Nat
  iov_len : Nat
deriving DecidableEq, Repr

/-- `vtest_sync_unref` (vtest_renderer.c:1795) after decoding the
handle: `util_hash_table_remove(ctx->sync_table, handle)` — removing the
entry and running the destroy callback (`vtest_unref_sync`) when the
handle is mapped, a no-op otherwise — and return 0 either way. -/
def vtest_sync_unref (table : List Nat) (h : List SyncObj) (sid : Nat) :
    Int × List Nat × List SyncObj :=
  if sid ∈ table then (0, table.erase sid, unrefSync h sid)
  else (0, table, h)

/-- `vtest_resource_unref` (vtest_renderer.c:1233) after decoding the
handle: `util_hash_table_remove(ctx->resource_table, handle)` — removing
the entry and running the destroy callback (`vtest_unref_resource`,
whose renderer unref is recorded in the returned call list) when the
handle is mapped, a no-op otherwise — and return 0 either way. -/
def vtest_resource_unref (rtable : List (Nat × VRes)) (handle : Nat) :
    Int × List (Nat × VRes) × List Nat :=
  if (rtable.find? (fun e => e.1 == handle)).isSome then
    (0, rtable.filter (fun e => !(e.1 == handle)), [handle])
  else
    (0, rtable, [])

/-- Timeline S of the queued-submit-ordering scenario: id 1, value 0,
three strong references (the context's sync table plus submits B1, B2). -/
def sqS : SyncObj := ⟨1, 3, 0⟩

/-- Batch B1's queued submit: signals S to 1. -/
def sqB1 : SQSubmit := ⟨1, [(1, 1)]⟩

/-- Batch B2's queued submit: signals S to 2. -/
def sqB2 : SQSubmit := ⟨2, [(1, 2)]⟩

/-- A later submit queued after B1 and B2 were drained: signals S to 9. -/
def sqB3 : SQSubmit := ⟨3, [(1, 9)]⟩

/-- Sync state of the scenario: S on the heap, no waits. -/
def sqSt : SyncSt := ⟨[sqS], []⟩

/-- The version PROTOCOL_VERSION negotiates per the claim: the minimum
of the guest's and the server's versions, downgraded to 0 when that
minimum is 1 or when shared memory is unavailable. -/
def negotiatedVersion (server_version guest : Nat) (shm_ok : Bool) : Nat :=
  if shm_ok = false then 0
  else if min guest server_version = 1 then 0
  else min guest server_version

/-- The batch of the C5 failing input: `cmd_offset = 0xFFFFFFFF`,
`cmd_size = 2`, so mathematically `cmd_offset + cmd_size = 2^32 + 1`
exceeds any small frame, but the uint32 sum wraps to 1. -/
def c5Batch : Cmd2Batch := ⟨0, 2 ^ 32 - 1, 2, 0, 0, 0⟩

/-- The requests a registration stores: those whose sync value has not
yet reached the threshold. -/
def unsigReqs (h : List SyncObj) (reqs : List (Nat × Nat)) : List (Nat × Nat) :=
  reqs.filter (fun r => decide (syncValue h r.1 < r.2))

/-- The state of the C8 witness: sync 1 at value 0; one expired wait
(fd 5, deadline 3) and one live wait (fd 7, deadline 100), both on
(sync 1, threshold 1). -/
def c8St : SyncSt :=
  ⟨[⟨1, 3, 0⟩], [⟨5, 0, 3, [⟨1, 1, false⟩], 0⟩, ⟨7, 0, 100, [⟨1, 1, false⟩], 0⟩]⟩

/-- The wait of the C2 counterexample: ALL mode (flags 0), deadline
1000, registered over (sync 1, threshold 5) and (sync 2, threshold 3). -/
def c2Wait : SyncWait := ⟨7, 0, 1000, [⟨1, 5, false⟩, ⟨2, 3, false⟩], 0⟩

/-- Initial state of the C2 counterexample: syncs 1 and 2 at value 0,
the one registered wait. -/
def c2St0 : SyncSt := ⟨[⟨1, 2, 0⟩, ⟨2, 2, 0⟩], [c2Wait]⟩

/-- The wait of the C2 witness: ALL mode, deadline 100, one slot
(sync 1, threshold 1). -/
def c2Wait2 : SyncWait := ⟨7, 0, 100, [⟨1, 1, false⟩], 0⟩

/-- State of the C2 witness: sync 1 at value 0 with the one wait. -/
def c2St2 : SyncSt := ⟨[⟨1, 2, 0⟩], [c2Wait2]⟩

/-! ### Helper lemmas -/

theorem find?_update (h : List SyncObj) (s x : Nat) (g : SyncObj → SyncObj)
    (hid : ∀ o, (g o).sync_id = o.sync_id) :
    (h.map (fun o => if o.sync_id == s then g o else o)).find? (fun o => o.sync_id == x) =
      (h.find? (fun o => o.sync_id == x)).map
        (fun o => if o.sync_id == s then g o else o) := by
  induction h with
  | nil => rfl
  | cons o t ih =>
    have h1 : (if o.sync_id == s then g o else o).sync_id = o.sync_id := by
      by_cases hs : o.sync_id = s <;> simp [hs, hid]
    simp only [List.map_cons, List.find?_cons, h1]
    by_cases hbx : o.sync_id = x
    · simp [hbx]
    · have hb : (o.sync_id == x) = false := by simp [hbx]
      simp only [hb]
      exact ih

theorem syncValue_refSync (h : List SyncObj) (s x : Nat) :
    syncValue (refSync h s) x = syncValue h x := by
  unfold syncValue refSync
  rw [find?_update h s x (fun o => { o with refcount := o.refcount + 1 }) (fun o => rfl)]
  cases hf : h.find? (fun o => o.sync_id == x) with
  | none => rfl
  | some o => by_cases hs : o.sync_id = s <;> simp [hs]

theorem syncValue_unrefSync (h : List SyncObj) (s x : Nat) :
    syncValue (unrefSync h s) x = syncValue h x := by
  unfold syncValue unrefSync
  rw [find?_update h s x (fun o => { o with refcount := o.refcount - 1 }) (fun o => rfl)]
  cases hf : h.find? (fun o => o.sync_id == x) with
  | none => rfl
  | some o => by_cases hs : o.sync_id = s <;> simp [hs]

theorem syncValue_applyRefs (ids : List Nat) (h : List SyncObj) (x : Nat) :
    syncValue (applyRefs h ids) x = syncValue h x := by
  induction ids generalizing h with
  | nil => rfl
  | cons i t ih =>
    show syncValue (applyRefs (refSync h i) t) x = _
    rw [ih (refSync h i), syncValue_refSync]

theorem syncValue_applyUnrefs (ids : List Nat) (h : List SyncObj) (x : Nat) :
    syncValue (applyUnrefs h ids) x = syncValue h x := by
  induction ids generalizing h with
  | nil => rfl
  | cons i t ih =>
    show syncValue (applyUnrefs (unrefSync h i) t) x = _
    rw [ih (unrefSync h i), syncValue_unrefSync]

theorem hasSync_refSync (h : List SyncObj) (s x : Nat) :
    hasSync (refSync h s) x = hasSync h x := by
  unfold hasSync refSync
  rw [find?_update h s x (fun o => { o with refcount := o.refcount + 1 }) (fun o => rfl)]
  cases h.find? (fun o => o.sync_id == x) <;> rfl

theorem hasSync_unrefSync (h : List SyncObj) (s x : Nat) :
    hasSync (unrefSync h s) x = hasSync h x := by
  unfold hasSync unrefSync
  rw [find?_update h s x (fun o => { o with refcount := o.refcount - 1 }) (fun o => rfl)]
  cases h.find? (fun o => o.sync_id == x) <;> rfl

theorem hasSync_setSyncValue (h : List SyncObj) (s v x : Nat) :
    hasSync (setSyncValue h s v) x = hasSync h x := by
  unfold hasSync setSyncValue
  rw [find?_update h s x (fun o => { o with value := v }) (fun o => rfl)]
  cases h.find? (fun o => o.sync_id == x) <;> rfl

theorem syncValue_setSyncValue_self (h : List SyncObj) (s v : Nat)
    (hs : hasSync h s = true) :
    syncValue (setSyncValue h s v) s = v := by
  unfold syncValue setSyncValue
  rw [find?_update h s s (fun o => { o with value := v }) (fun o => rfl)]
  unfold hasSync at hs
  cases hf : h.find? (fun o => o.sync_id == s) with
  | none => rw [hf] at hs; simp at hs
  | some o =>
    have ho : o.sync_id = s := by simpa using List.find?_some hf
    simp [ho]

theorem syncValue_setSyncValue_other (h : List SyncObj) (s v x : Nat) (hx : x ≠ s) :
    syncValue (setSyncValue h s v) x = syncValue h x := by
  unfold syncValue setSyncValue
  rw [find?_update h s x (fun o => { o with value := v }) (fun o => rfl)]
  cases hf : h.find? (fun o => o.sync_id == x) with
  | none => rfl
  | some o =>
    have ho := List.find?_some hf
    simp only [beq_iff_eq] at ho
    have hne : o.sync_id ≠ s := by omega
    simp [hne]

theorem syncRefcount_setSyncValue (h : List SyncObj) (s v x : Nat) :
    syncRefcount (setSyncValue h s v) x = syncRefcount h x := by
  unfold syncRefcount setSyncValue
  rw [find?_update h s x (fun o => { o with value := v }) (fun o => rfl)]
  cases hf : h.find? (fun o => o.sync_id == x) with
  | none => rfl
  | some o => by_cases hs : o.sync_id = s <;> simp [hs]

theorem syncRefcount_refSync (h : List SyncObj) (s x : Nat) :
    syncRefcount (refSync h s) x =
      syncRefcount h x + (if x = s ∧ hasSync h x = true then 1 else 0) := by
  unfold syncRefcount refSync hasSync
  rw [find?_update h s x (fun o => { o with refcount := o.refcount + 1 }) (fun o => rfl)]
  cases hf : h.find? (fun o => o.sync_id == x) with
  | none => simp
  | some o =>
    have ho := List.find?_some hf
    simp only [beq_iff_eq] at ho
    by_cases hs : x = s
    · subst hs
      simp [ho]
    · have hne : o.sync_id ≠ s := by omega
      simp [hne, hs]

theorem syncRefcount_unrefSync (h : List SyncObj) (s x : Nat) :
    syncRefcount (unrefSync h s) x =
      syncRefcount h x - (if x = s then 1 else 0) := by
  unfold syncRefcount unrefSync
  rw [find?_update h s x (fun o => { o with refcount := o.refcount - 1 }) (fun o => rfl)]
  cases hf : h.find? (fun o => o.sync_id == x) with
  | none => simp
  | some o =>
    have ho := List.find?_some hf
    simp only [beq_iff_eq] at ho
    by_cases hs : x = s
    · subst hs
      simp [ho]
    · have hne : o.sync_id ≠ s := by omega
      simp [hne, hs]

theorem hasSync_applyRefs (ids : List Nat) (h : List SyncObj) (x : Nat) :
    hasSync (applyRefs h ids) x = hasSync h x := by
  induction ids generalizing h with
  | nil => rfl
  | cons i t ih =>
    show hasSync (applyRefs (refSync h i) t) x = _
    rw [ih (refSync h i), hasSync_refSync]

theorem hasSync_applyUnrefs (ids : List Nat) (h : List SyncObj) (x : Nat) :
    hasSync (applyUnrefs h ids) x = hasSync h x := by
  induction ids generalizing h with
  | nil => rfl
  | cons i t ih =>
    show hasSync (applyUnrefs (unrefSync h i) t) x = _
    rw [ih (unrefSync h i), hasSync_unrefSync]

theorem syncRefcount_applyRefs (ids : List Nat) (h : List SyncObj) (x : Nat) :
    syncRefcount (applyRefs h ids) x =
      syncRefcount h x + (if hasSync h x = true then ids.count x else 0) := by
  induction ids generalizing h with
  | nil => simp [applyRefs]
  | cons i t ih =>
    show syncRefcount (applyRefs (refSync h i) t) x = _
    rw [ih (refSync h i), syncRefcount_refSync, hasSync_refSync]
    by_cases hx : hasSync h x = true
    · by_cases hxi : x = i
      · subst hxi
        simp only [hx, and_true, if_true, List.count_cons, beq_self_eq_true, if_pos rfl]
        omega
      · simp [hx, hxi, List.count_cons]
    · simp [hx]

theorem syncRefcount_applyUnrefs (ids : List Nat) (h : List SyncObj) (x : Nat) :
    syncRefcount (applyUnrefs h ids) x = syncRefcount h x - ids.count x := by
  induction ids generalizing h with
  | nil => simp [applyUnrefs]
  | cons i t ih =>
    show syncRefcount (applyUnrefs (unrefSync h i) t) x = _
    rw [ih (unrefSync h i), syncRefcount_unrefSync]
    by_cases hxi : x = i
    · subst hxi
      simp only [if_pos rfl, List.count_cons, beq_self_eq_true, if_true]
      omega
    · simp [hxi, List.count_cons]

theorem syncRefcount_of_not_hasSync (h : List SyncObj) (x : Nat)
    (hx : hasSync h x = false) : syncRefcount h x = 0 := by
  unfold hasSync at hx
  unfold syncRefcount
  cases hf : h.find? (fun o => o.sync_id == x) with
  | none => rfl
  | some o => rw [hf] at hx; simp at hx

/-- Taking a strong reference per id and then dropping one per id leaves
every refcount unchanged. -/
theorem syncRefcount_refs_unrefs_cancel (ids : List Nat) (h : List SyncObj) (x : Nat) :
    syncRefcount (applyUnrefs (applyRefs h ids) ids) x = syncRefcount h x := by
  rw [syncRefcount_applyUnrefs, syncRefcount_applyRefs]
  by_cases hx : hasSync h x = true
  · simp only [hx, if_true]
    omega
  · rw [syncRefcount_of_not_hasSync h x (by simpa using hx)]
    simp [hx]

/-- C1: when the context-fence callback fires with cookie `submit`, the
engine pops entries from that queue in FIFO order from the head up to
and including `submit` (the popped prefix being released in order via
`signalSubmit`, which signals every contained (sync, value) pair through
`vtest_signal_sync` and then drops the entry's strong references and
frees it), the rest of the queue surviving; and in the concrete
scenario with B1 (S→1) queued before B2 (S→2), completing B2's fence
first releases B1 then B2 (leaving S at 2 and the queue empty, B1's
later callback a no-op), while completing B1's fence first releases
exactly B1 and then B2's callback releases B2 — in both orders S ends
at 2. -/
theorem C1_sync_queue_fifo_release :
    (∀ now st pre post (tgt : SQSubmit),
      (∀ sub ∈ pre, sub.submit_id ≠ tgt.submit_id) →
      vtest_signal_sync_queue now st (pre ++ tgt :: post) tgt.submit_id =
        ((drainSubmits now st (pre ++ [tgt])).1, post,
          (drainSubmits now st (pre ++ [tgt])).2)) ∧
    ((vtest_write_context_fence 0 sqSt [sqB1, sqB2] 2).2.1 = [] ∧
      syncValue (vtest_write_context_fence 0 sqSt [sqB1, sqB2] 2).1.syncs 1 = 2 ∧
      vtest_write_context_fence 0
          (vtest_write_context_fence 0 sqSt [sqB1, sqB2] 2).1
          (vtest_write_context_fence 0 sqSt [sqB1, sqB2] 2).2.1 1 =
        ((vtest_write_context_fence 0 sqSt [sqB1, sqB2] 2).1, [], [])) ∧
    ((vtest_write_context_fence 0 sqSt [sqB1, sqB2] 1).2.1 = [sqB2] ∧
      syncValue (vtest_write_context_fence 0 sqSt [sqB1, sqB2] 1).1.syncs 1 = 1 ∧
      syncValue (vtest_write_context_fence 0
          (vtest_write_context_fence 0 sqSt [sqB1, sqB2] 1).1 [sqB2] 2).1.syncs 1 = 2) := by
  refine ⟨?_, by decide, by decide⟩
  intro now st pre post tgt hpre
  induction pre generalizing st with
  | nil =>
    simp [vtest_signal_sync_queue, drainSubmits]
  | cons p pre' ih =>
    have hne : (p.submit_id == tgt.submit_id) = false := by
      simp [hpre p (List.mem_cons_self p pre')]
    simp only [List.cons_append, vtest_signal_sync_queue, hne, Bool.false_eq_true, if_false,
      drainSubmits, List.append_eq]
    rw [ih (signalSubmit now st p).1 (fun sub hs => hpre sub (List.mem_cons_of_mem p hs))]

/-- C1 witness: the FIFO-release equation applied to the concrete
scenario queue [B1, B2] with cookie B2. -/
theorem C1_sync_queue_fifo_release_witness :
    vtest_signal_sync_queue 0 sqSt ([sqB1] ++ sqB2 :: []) sqB2.submit_id =
      ((drainSubmits 0 sqSt ([sqB1] ++ [sqB2])).1, [],
        (drainSubmits 0 sqSt ([sqB1] ++ [sqB2])).2) :=
  C1_sync_queue_fifo_release.1 0 sqSt [sqB1] [] sqB2 (by decide)

/-- C4 counterexample: cookie 1 (already drained earlier) is not in the
queue, which still holds submit B3; the walk does NOT leave the queue
and the sync values unchanged — it pops and signals B3 (S jumps to 9)
and empties the queue. -/
theorem C4_counterexample :
    (vtest_signal_sync_queue 0 ⟨[⟨1, 2, 0⟩], []⟩ [sqB3] 1).2.1 = [] ∧
    syncValue (vtest_signal_sync_queue 0 ⟨[⟨1, 2, 0⟩], []⟩ [sqB3] 1).1.syncs 1 = 9 ∧
    ¬((vtest_signal_sync_queue 0 ⟨[⟨1, 2, 0⟩], []⟩ [sqB3] 1).2.1 = [sqB3] ∧
      syncValue (vtest_signal_sync_queue 0 ⟨[⟨1, 2, 0⟩], []⟩ [sqB3] 1).1.syncs 1 = 0) := by
  decide

/-- C4 (amended): the walk has no lookup-first guard — when the cookie
is not found in the queue it pops, signals and frees every queued
submit, draining the queue completely; the operation is the unchanged
no-op the claim describes exactly when the queue is already empty
(which is the state an absorbed cookie leaves behind when nothing new
was queued since). -/
theorem C4_not_found_drains_all :
    (∀ now st to_id, vtest_signal_sync_queue now st [] to_id = (st, [], [])) ∧
    (∀ now st queue to_id,
      (∀ sub ∈ queue, sub.submit_id ≠ to_id) →
      vtest_signal_sync_queue now st queue to_id =
        ((drainSubmits now st queue).1, [], (drainSubmits now st queue).2)) := by
  refine ⟨fun now st to_id => rfl, ?_⟩
  intro now st queue to_id hq
  induction queue generalizing st with
  | nil => simp [vtest_signal_sync_queue, drainSubmits]
  | cons p rest ih =>
    have hne : (p.submit_id == to_id) = false := by
      simp [hq p (List.mem_cons_self p rest)]
    simp only [vtest_signal_sync_queue, hne, Bool.false_eq_true, if_false, drainSubmits]
    rw [ih (signalSubmit now st p).1 (fun sub hs => hq sub (List.mem_cons_of_mem p hs))]

/-- C4 witness: the drain-all equation applied to the concrete
counterexample queue. -/
theorem C4_not_found_drains_all_witness :
    vtest_signal_sync_queue 0 ⟨[⟨1, 2, 0⟩], []⟩ [sqB3] 1 =
      ((drainSubmits 0 ⟨[⟨1, 2, 0⟩], []⟩ [sqB3]).1, [],
        (drainSubmits 0 ⟨[⟨1, 2, 0⟩], []⟩ [sqB3]).2) :=
  C4_not_found_drains_all.2 0 ⟨[⟨1, 2, 0⟩], []⟩ [sqB3] 1 (by decide)

/-- C3 counterexample: a sync holding value 5 receives a SYNC_WRITE of
the smaller value 3; the stored value does not stay 5 — the assignment
in the early-return branch of `vtest_signal_sync` lowers it to 3. -/
theorem C3_counterexample :
    syncValue (SyncSt.syncs ⟨[⟨1, 1, 5⟩], []⟩) 1 = 5 ∧
    syncValue (vtest_signal_sync ⟨[⟨1, 1, 5⟩], []⟩ 1 3 0).1.syncs 1 = 3 ∧
    ¬ syncValue (vtest_signal_sync ⟨[⟨1, 1, 5⟩], []⟩ 1 3 0).1.syncs 1 = 5 := by
  decide

/-- C3 (amended): `vtest_signal_sync` assigns the written value
unconditionally — after any write the sync's value equals the value
written, even when that decreases it (last-write-wins, not
monotonic) — and a write that does not strictly increase the value
performs no wait processing (no wait mutated, no fd written). -/
theorem C3_signal_sync_overwrites (st : SyncSt) (s v now : Nat)
    (hs : hasSync st.syncs s = true) :
    syncValue (vtest_signal_sync st s v now).1.syncs s = v ∧
    (v ≤ syncValue st.syncs s →
      (vtest_signal_sync st s v now).1.waits = st.waits ∧
      (vtest_signal_sync st s v now).2 = []) := by
  unfold vtest_signal_sync
  by_cases hle : v ≤ syncValue st.syncs s
  · rw [if_pos hle]
    exact ⟨syncValue_setSyncValue_self st.syncs s v hs, fun _ => ⟨rfl, rfl⟩⟩
  · rw [if_neg hle]
    refine ⟨?_, fun hc => absurd hc hle⟩
    show syncValue
        (applyUnrefs (setSyncValue st.syncs s v) (signalWaits s v now st.waits).2.1) s = v
    rw [syncValue_applyUnrefs, syncValue_setSyncValue_self st.syncs s v hs]

/-- C3 witness: writing 3 over 5 stores 3 and does not touch the wait
list. -/
theorem C3_signal_sync_overwrites_witness :
    syncValue (vtest_signal_sync ⟨[⟨1, 1, 5⟩], []⟩ 1 3 0).1.syncs 1 = 3 ∧
    (vtest_signal_sync ⟨[⟨1, 1, 5⟩], []⟩ 1 3 0).1.waits = [] ∧
    (vtest_signal_sync ⟨[⟨1, 1, 5⟩], []⟩ 1 3 0).2 = [] := by
  have h := C3_signal_sync_overwrites ⟨[⟨1, 1, 5⟩], []⟩ 1 3 0 (by decide)
  exact ⟨h.1, (h.2 (by decide)).1, (h.2 (by decide)).2⟩

/-- C9: the PROTOCOL_VERSION handler negotiates
`min(guest, server)`, downgrades 1 to 0 and downgrades to 0 without
shared-memory support; in multi-client mode a negotiated version below
3 fails with `Invalid` leaving the context's `protocol_version`
untouched, and otherwise the context's `protocol_version` becomes the
negotiated value, which is echoed in the response. -/
theorem C9_protocol_version_negotiation (server_version guest : Nat)
    (shm_ok multi : Bool) (cur : Nat) :
    (multi = true ∧ negotiatedVersion server_version guest shm_ok < 3 →
      vtest_protocol_version server_version guest shm_ok multi cur =
        (.error .Invalid, cur, none)) ∧
    (¬(multi = true ∧ negotiatedVersion server_version guest shm_ok < 3) →
      vtest_protocol_version server_version guest shm_ok multi cur =
        (.ok (), negotiatedVersion server_version guest shm_ok,
          some (negotiatedVersion server_version guest shm_ok))) := by
  have hv : (if !shm_ok then 0 else if (min guest server_version == 1) = true
        then 0 else min guest server_version) =
      negotiatedVersion server_version guest shm_ok := by
    unfold negotiatedVersion
    cases shm_ok <;> by_cases h1 : min guest server_version = 1 <;> simp [h1]
  constructor
  · rintro ⟨hm, hlt⟩
    unfold vtest_protocol_version
    subst hm
    simp only [hv, Bool.true_and]
    rw [if_pos (by simpa using hlt)]
  · intro hn
    unfold vtest_protocol_version
    simp only [hv]
    rw [if_neg]
    intro hc
    simp only [Bool.and_eq_true, decide_eq_true_eq] at hc
    exact hn ⟨hc.1, hc.2⟩

/-- C9 witness: a single-client negotiation with guest version 3,
server version 3 and shared memory available succeeds with version 3. -/
theorem C9_protocol_version_negotiation_witness :
    vtest_protocol_version 3 3 true false 0 = (.ok (), 3, some 3) := by
  have h := (C9_protocol_version_negotiation 3 3 true false 0).2 (by decide)
  simpa using h

/-- C10: SYNC_UNREF and RESOURCE_UNREF with a handle absent from the
context's sync (resp. resource) table return 0 and leave the tables,
the sync heap (every value and refcount) and every resource unchanged,
with no renderer unref call. -/
theorem C10_unref_absent_handle_noop (table : List Nat) (h : List SyncObj)
    (sid : Nat) (rtable : List (Nat × VRes)) (handle : Nat)
    (hs : sid ∉ table)
    (hr : rtable.find? (fun e => e.1 == handle) = none) :
    vtest_sync_unref table h sid = (0, table, h) ∧
    vtest_resource_unref rtable handle = (0, rtable, []) := by
  constructor
  · unfold vtest_sync_unref
    rw [if_neg hs]
  · unfold vtest_resource_unref
    rw [hr]
    simp

/-- C10 witness: unref of sync handle 5 absent from table {1, 2} and of
resource handle 7 absent from a one-entry resource table. -/
theorem C10_unref_absent_handle_noop_witness :
    vtest_sync_unref [1, 2] [⟨1, 1, 0⟩, ⟨2, 1, 4⟩] 5 =
      (0, [1, 2], [⟨1, 1, 0⟩, ⟨2, 1, 4⟩]) ∧
    vtest_resource_unref [(1, ⟨1, 0⟩)] 7 = (0, [(1, ⟨1, 0⟩)], []) :=
  C10_unref_absent_handle_noop [1, 2] [⟨1, 1, 0⟩, ⟨2, 1, 4⟩] 5 [(1, ⟨1, 0⟩)] 7
    (by decide) (by decide)

/-- C5 (code bug evaluation): the frame bounds check of
`vtest_submit_cmd2` computes `cmd_offset + cmd_size` in wrapping uint32
arithmetic, so a batch whose real `cmd_offset + cmd_size` (2^32 + 1)
exceeds `length_dw = 16` passes validation and
`virgl_renderer_submit_cmd` IS called for it, instead of the claimed
`Invalid` rejection before any renderer call. -/
theorem C5_bounds_check_wraps :
    cmd2BatchOutOfBounds c5Batch 16 = false ∧
    16 < c5Batch.cmd_offset + c5Batch.cmd_size ∧
    (vtest_submit_cmd2 ⟨[], [], [], []⟩ 16 0 0 [(c5Batch, [], true, true, 0)]).res =
      .ok () ∧
    (vtest_submit_cmd2 ⟨[], [], [], []⟩ 16 0 0 [(c5Batch, [], true, true, 0)]).calls =
      [.submitCmd 0] := by
  refine ⟨by decide, by norm_num [c5Batch], ?_, ?_⟩ <;> decide

theorem lookupSync_refSync (table : List Nat) (h : List SyncObj) (s x : Nat) :
    lookupSync table (refSync h s) x =
      (lookupSync table h x).map
        (fun o => if o.sync_id == s then { o with refcount := o.refcount + 1 } else o) := by
  unfold lookupSync refSync
  by_cases hx : x ∈ table
  · rw [if_pos hx, if_pos hx,
      find?_update h s x (fun o => { o with refcount := o.refcount + 1 }) (fun o => rfl)]
  · rw [if_neg hx, if_neg hx]
    rfl

theorem lookupSync_value (table : List Nat) (h : List SyncObj) (sid : Nat)
    (o : SyncObj) (hl : lookupSync table h sid = some o) :
    syncValue h sid = o.value := by
  unfold lookupSync at hl
  by_cases hx : sid ∈ table
  · rw [if_pos hx] at hl
    unfold syncValue
    rw [hl]
    rfl
  · rw [if_neg hx] at hl
    cases hl

theorem unsigReqs_refSync (h : List SyncObj) (s : Nat) (reqs : List (Nat × Nat)) :
    unsigReqs (refSync h s) reqs = unsigReqs h reqs := by
  unfold unsigReqs
  apply List.filter_congr
  intro r _
  rw [syncValue_refSync]

theorem listIsEmpty_map {α β : Type} (f : α → β) (l : List α) :
    (l.map f).isEmpty = l.isEmpty := by
  cases l <;> rfl

theorem liveSlotIds_fresh (u : List (Nat × Nat)) :
    liveSlotIds (u.map (fun r => ⟨r.1, r.2, false⟩)) = u.map Prod.fst := by
  induction u with
  | nil => rfl
  | cons r t ih => simpa [liveSlotIds, List.filter_cons] using ih

theorem waitInitLoop_all_found (table : List Nat) (reqs : List (Nat × Nat)) :
    ∀ h : List SyncObj, (∀ r ∈ reqs, (lookupSync table h r.1).isSome = true) →
    waitInitLoop table h reqs =
      (applyRefs h ((unsigReqs h reqs).map Prod.fst),
        (unsigReqs h reqs).map (fun r => ⟨r.1, r.2, false⟩), true) := by
  induction reqs with
  | nil =>
    intro h _
    rfl
  | cons r rest ih =>
    intro h hf
    obtain ⟨sid, t⟩ := r
    have hhead := hf (sid, t) (List.mem_cons_self _ _)
    obtain ⟨o, ho⟩ := Option.isSome_iff_exists.mp hhead
    have hval : syncValue h sid = o.value := lookupSync_value table h sid o ho
    simp only [waitInitLoop, ho]
    by_cases hlt : o.value < t
    · rw [if_pos hlt]
      have hf' : ∀ r ∈ rest, (lookupSync table (refSync h sid) r.1).isSome = true := by
        intro r hr
        rw [lookupSync_refSync]
        simp [Option.isSome_map]
        exact Option.isSome_iff_exists.mp (hf r (List.mem_cons_of_mem _ hr)) |>.elim
          (fun o' ho' => by simp [Option.isSome_iff_exists, ho'])
      rw [ih (refSync h sid) hf', unsigReqs_refSync]
      have hu : unsigReqs h ((sid, t) :: rest) = (sid, t) :: unsigReqs h rest := by
        unfold unsigReqs
        rw [List.filter_cons_of_pos]
        simp [hval, hlt]
      rw [hu, List.map_cons, List.map_cons]
      rfl
    · rw [if_neg hlt]
      have hu : unsigReqs h ((sid, t) :: rest) = unsigReqs h rest := by
        unfold unsigReqs
        rw [List.filter_cons_of_neg]
        simp [hval, hlt]
      rw [ih h (fun r hr => hf r (List.mem_cons_of_mem _ hr)), hu]

/-- C7: for every SYNC_WAIT registration whose sync ids are all present,
the handler succeeds; the ready token is written to the wait's fd
immediately exactly when no input remains unsignaled or the ANY flag is
set and at least one input was pre-signaled (`sync.value >= threshold`
at registration); a non-ready wait with `timeout == 0` is freed rather
than queued (its fd never written, the taken references returned);
otherwise the wait is appended to the context's wait list holding
exactly the unsignaled inputs. -/
theorem C7_sync_wait_registration (table : List Nat) (h : List SyncObj)
    (waits : List SyncWait) (flags timeout : Nat) (reqs : List (Nat × Nat))
    (now fd : Nat)
    (hf : ∀ r ∈ reqs, (lookupSync table h r.1).isSome = true) :
    (vtest_sync_wait table h waits flags timeout reqs now fd).res = .ok () ∧
    (vtest_sync_wait table h waits flags timeout reqs now fd).notifs =
      (if (unsigReqs h reqs).isEmpty
          || (anyFlagSet flags && decide ((unsigReqs h reqs).length < reqs.length))
        then [fd] else []) ∧
    ((unsigReqs h reqs).isEmpty = true ↔ ∀ r ∈ reqs, r.2 ≤ syncValue h r.1) ∧
    ((unsigReqs h reqs).length < reqs.length ↔ ∃ r ∈ reqs, r.2 ≤ syncValue h r.1) ∧
    (vtest_sync_wait table h waits flags timeout reqs now fd).queued =
      (!((unsigReqs h reqs).isEmpty
          || (anyFlagSet flags && decide ((unsigReqs h reqs).length < reqs.length)))
        && !(timeout == 0)) ∧
    ((vtest_sync_wait table h waits flags timeout reqs now fd).queued = true →
      (vtest_sync_wait table h waits flags timeout reqs now fd).waits =
        waits ++ [⟨fd, flags, vtest_gettime now timeout,
          (unsigReqs h reqs).map (fun r => ⟨r.1, r.2, false⟩), 0⟩]) ∧
    ((vtest_sync_wait table h waits flags timeout reqs now fd).queued = false →
      (vtest_sync_wait table h waits flags timeout reqs now fd).waits = waits ∧
      ∀ x, syncRefcount (vtest_sync_wait table h waits flags timeout reqs now fd).heap x =
            syncRefcount h x ∧
          syncValue (vtest_sync_wait table h waits flags timeout reqs now fd).heap x =
            syncValue h x) := by
  have hmain : vtest_sync_wait table h waits flags timeout reqs now fd =
      (if (unsigReqs h reqs).isEmpty
          || (anyFlagSet flags && decide ((unsigReqs h reqs).length < reqs.length))
          || timeout == 0
        then ⟨.ok (),
          applyUnrefs (applyRefs h ((unsigReqs h reqs).map Prod.fst))
            ((unsigReqs h reqs).map Prod.fst), waits,
          (if (unsigReqs h reqs).isEmpty
              || (anyFlagSet flags && decide ((unsigReqs h reqs).length < reqs.length))
            then [fd] else []), false⟩
        else ⟨.ok (), applyRefs h ((unsigReqs h reqs).map Prod.fst),
          waits ++ [⟨fd, flags, vtest_gettime now timeout,
            (unsigReqs h reqs).map (fun r => ⟨r.1, r.2, false⟩), 0⟩],
          (if (unsigReqs h reqs).isEmpty
              || (anyFlagSet flags && decide ((unsigReqs h reqs).length < reqs.length))
            then [fd] else []), true⟩) := by
    unfold vtest_sync_wait vtest_sync_wait_init
    rw [waitInitLoop_all_found table reqs h hf]
    simp [listIsEmpty_map, liveSlotIds_fresh]
  have hiff1 : (unsigReqs h reqs).isEmpty = true ↔ ∀ r ∈ reqs, r.2 ≤ syncValue h r.1 := by
    unfold unsigReqs
    rw [List.isEmpty_iff, List.filter_eq_nil_iff]
    simp [not_lt]
  have hiff2 : (unsigReqs h reqs).length < reqs.length ↔
      ∃ r ∈ reqs, r.2 ≤ syncValue h r.1 := by
    unfold unsigReqs
    rw [List.length_filter_lt_length_iff_exists]
    simp [not_lt]
  rw [hmain]
  by_cases hrdy : ((unsigReqs h reqs).isEmpty
      || (anyFlagSet flags && decide ((unsigReqs h reqs).length < reqs.length))) = true
  · rw [hrdy]
    refine ⟨?_, ?_, hiff1, hiff2, ?_, ?_, ?_⟩ <;>
      simp [syncRefcount_refs_unrefs_cancel, syncValue_applyUnrefs, syncValue_applyRefs]
  · rw [Bool.not_eq_true] at hrdy
    rw [hrdy]
    by_cases ht : (timeout == 0) = true
    · rw [ht]
      refine ⟨?_, ?_, hiff1, hiff2, ?_, ?_, ?_⟩ <;>
        simp [syncRefcount_refs_unrefs_cancel, syncValue_applyUnrefs, syncValue_applyRefs]
    · rw [Bool.not_eq_true] at ht
      rw [ht]
      refine ⟨?_, ?_, hiff1, hiff2, ?_, ?_, ?_⟩ <;>
        simp [syncRefcount_refs_unrefs_cancel, syncValue_applyUnrefs, syncValue_applyRefs]

/-- C7 witness: the pre-signaled-wait scenario — sync S has value 7, a
wait over {(S, 5)} with timeout 0 is immediately notified and not
retained. -/
theorem C7_sync_wait_registration_witness :
    (vtest_sync_wait [1] [⟨1, 1, 7⟩] [] 0 0 [(1, 5)] 0 9).res = .ok () ∧
    (vtest_sync_wait [1] [⟨1, 1, 7⟩] [] 0 0 [(1, 5)] 0 9).notifs = [9] ∧
    (vtest_sync_wait [1] [⟨1, 1, 7⟩] [] 0 0 [(1, 5)] 0 9).queued = false := by
  have hc := C7_sync_wait_registration [1] [⟨1, 1, 7⟩] [] 0 0 [(1, 5)] 0 9 (by decide)
  refine ⟨hc.1, ?_, ?_⟩
  · rw [hc.2.1]
    decide
  · rw [hc.2.2.2.2.1]
    decide

theorem collectRefs_heap (table : List Nat) (l : List (Nat × Nat)) :
    ∀ h : List SyncObj,
      (collectRefs table h l).1 =
        applyRefs h ((collectRefs table h l).2.1.map Prod.fst) := by
  induction l with
  | nil =>
    intro h
    rfl
  | cons r rest ih =>
    intro h
    obtain ⟨sid, v⟩ := r
    cases ho : lookupSync table h sid with
    | none => simp only [collectRefs, ho]; rfl
    | some o =>
      simp only [collectRefs, ho, List.map_cons]
      exact ih (refSync h sid)

theorem collectRefs_break (table : List Nat) (l : List (Nat × Nat)) :
    ∀ h : List SyncObj, (∃ r ∈ l, lookupSync table h r.1 = none) →
      (collectRefs table h l).2.2 = false := by
  induction l with
  | nil =>
    intro h hm
    obtain ⟨r, hr, _⟩ := hm
    cases hr
  | cons r rest ih =>
    intro h hm
    obtain ⟨sid, v⟩ := r
    cases ho : lookupSync table h sid with
    | none => simp only [collectRefs, ho]
    | some o =>
      simp only [collectRefs, ho]
      apply ih (refSync h sid)
      obtain ⟨r', hr', hn'⟩ := hm
      rcases List.mem_cons.mp hr' with hhd | htl
      · exfalso
        rw [hhd] at hn'
        rw [hn'] at ho
        cases ho
      · refine ⟨r', htl, ?_⟩
        rw [lookupSync_refSync, hn']
        rfl

/-- C6: a SUBMIT_CMD2 batch with the SYNC_QUEUE flag that references a
sync id absent from the context's sync table fails with `Exists` and
rolls the partially built submit back: every refcount it incremented is
decremented again (the heap is pointwise unchanged in refcounts, values
and presence), the table, every sync queue and the wait lists are
untouched, no context fence is created (the only renderer call is the
command submission that preceded the sync walk) and no fd is written. -/
theorem C6_submit_cmd2_missing_sync_rollback (idx : Nat) (st : BatchSt)
    (b : Cmd2Batch) (syncrefs : List (Nat × Nat)) (fence_ok : Bool)
    (now sub_id : Nat)
    (hflag : b.flags % 2 = 1)
    (hmiss : ∃ r ∈ syncrefs, lookupSync st.table st.heap r.1 = none) :
    (vtest_submit_cmd2_batch idx st b syncrefs true fence_ok now sub_id).res =
      .error .Exists ∧
    (∀ x,
      syncRefcount (vtest_submit_cmd2_batch idx st b syncrefs true fence_ok now sub_id).st.heap x =
        syncRefcount st.heap x ∧
      syncValue (vtest_submit_cmd2_batch idx st b syncrefs true fence_ok now sub_id).st.heap x =
        syncValue st.heap x ∧
      hasSync (vtest_submit_cmd2_batch idx st b syncrefs true fence_ok now sub_id).st.heap x =
        hasSync st.heap x) ∧
    (vtest_submit_cmd2_batch idx st b syncrefs true fence_ok now sub_id).st.table =
      st.table ∧
    (vtest_submit_cmd2_batch idx st b syncrefs true fence_ok now sub_id).st.queues =
      st.queues ∧
    (vtest_submit_cmd2_batch idx st b syncrefs true fence_ok now sub_id).st.waits =
      st.waits ∧
    (vtest_submit_cmd2_batch idx st b syncrefs true fence_ok now sub_id).calls =
      [.submitCmd idx] ∧
    (vtest_submit_cmd2_batch idx st b syncrefs true fence_ok now sub_id).notifs = [] := by
  have hne : syncrefs.isEmpty = false := by
    obtain ⟨r, hr, _⟩ := hmiss
    cases syncrefs with
    | nil => cases hr
    | cons a l => rfl
  have hfl : (b.flags % 2 == 1) = true := by simp [hflag]
  have hbrk : (collectRefs st.table st.heap syncrefs).2.2 = false :=
    collectRefs_break st.table syncrefs st.heap hmiss
  have hmain : vtest_submit_cmd2_batch idx st b syncrefs true fence_ok now sub_id =
      ⟨.error .Exists,
        { st with heap := (applyUnrefs (collectRefs st.table st.heap syncrefs).1
            ((collectRefs st.table st.heap syncrefs).2.1.map Prod.fst)) },
        [.submitCmd idx], []⟩ := by
    unfold vtest_submit_cmd2_batch
    rw [hne, hfl]
    simp [hbrk]
  rw [hmain]
  refine ⟨rfl, fun x => ?_, rfl, rfl, rfl, rfl, rfl⟩
  rw [collectRefs_heap st.table syncrefs st.heap]
  exact ⟨syncRefcount_refs_unrefs_cancel _ _ _,
    by rw [syncValue_applyUnrefs, syncValue_applyRefs],
    by rw [hasSync_applyUnrefs, hasSync_applyRefs]⟩

/-- C6 witness: a queued batch referencing syncs 1 (present) and 2
(absent) fails with `Exists`, the refcount of sync 1 returns to 1,
nothing is queued and no fence is created. -/
theorem C6_submit_cmd2_missing_sync_rollback_witness :
    (vtest_submit_cmd2_batch 0 ⟨[⟨1, 1, 0⟩], [1], [[]], []⟩ ⟨1, 0, 0, 0, 2, 0⟩
        [(1, 5), (2, 7)] true true 0 4).res = .error .Exists ∧
    syncRefcount (vtest_submit_cmd2_batch 0 ⟨[⟨1, 1, 0⟩], [1], [[]], []⟩ ⟨1, 0, 0, 0, 2, 0⟩
        [(1, 5), (2, 7)] true true 0 4).st.heap 1 = 1 ∧
    (vtest_submit_cmd2_batch 0 ⟨[⟨1, 1, 0⟩], [1], [[]], []⟩ ⟨1, 0, 0, 0, 2, 0⟩
        [(1, 5), (2, 7)] true true 0 4).st.queues = [[]] ∧
    (vtest_submit_cmd2_batch 0 ⟨[⟨1, 1, 0⟩], [1], [[]], []⟩ ⟨1, 0, 0, 0, 2, 0⟩
        [(1, 5), (2, 7)] true true 0 4).calls = [.submitCmd 0] := by
  have hc := C6_submit_cmd2_missing_sync_rollback 0 ⟨[⟨1, 1, 0⟩], [1], [[]], []⟩
    ⟨1, 0, 0, 0, 2, 0⟩ [(1, 5), (2, 7)] true 0 4 (by decide)
    ⟨(2, 7), by decide, by decide⟩
  refine ⟨hc.1, ?_, hc.2.2.2.1, hc.2.2.2.2.2.1⟩
  rw [(hc.2.1 1).1]
  decide

theorem processWait_notif_sound (s v now : Nat) (w : SyncWait) (f : Nat)
    (h : (processWait s v now w).2.2 = some f) :
    f = w.fd ∧ now ≤ w.valid_before := by
  unfold processWait at h
  by_cases hexp : w.valid_before < now
  · rw [if_pos hexp] at h
    simp at h
  · rw [if_neg hexp] at h
    dsimp only at h
    by_cases hr : (scanSlots s v w.slots.length (anyFlagSet w.flags)
        w.slots w.signaled_count).2.2 = true
    · rw [hr] at h
      simp at h
      exact ⟨h.symm, Nat.not_lt.mp hexp⟩
    · rw [Bool.not_eq_true] at hr
      rw [hr] at h
      simp at h

theorem processWait_kept_valid (s v now : Nat) (w w' : SyncWait)
    (h : (processWait s v now w).1 = some w') :
    now ≤ w'.valid_before := by
  unfold processWait at h
  by_cases hexp : w.valid_before < now
  · rw [if_pos hexp] at h
    simp at h
  · rw [if_neg hexp] at h
    dsimp only at h
    by_cases hr : (scanSlots s v w.slots.length (anyFlagSet w.flags)
        w.slots w.signaled_count).2.2 = true
    · rw [hr] at h
      simp at h
    · rw [Bool.not_eq_true] at hr
      rw [hr] at h
      simp at h
      rw [← h]
      exact Nat.not_lt.mp hexp

theorem signalWaits_notifs (s v now : Nat) :
    ∀ waits : List SyncWait, ∀ f ∈ (signalWaits s v now waits).2.2,
      ∃ w ∈ waits, w.fd = f ∧ now ≤ w.valid_before := by
  intro waits
  induction waits with
  | nil =>
    intro f hf
    simp [signalWaits] at hf
  | cons w rest ih =>
    intro f hf
    simp only [signalWaits] at hf
    rcases List.mem_append.mp hf with h1 | h2
    · cases hnot : (processWait s v now w).2.2 with
      | none =>
        rw [hnot] at h1
        simp at h1
      | some g =>
        rw [hnot] at h1
        simp at h1
        obtain ⟨hfd, hle⟩ := processWait_notif_sound s v now w g hnot
        exact ⟨w, List.mem_cons_self _ _, by rw [h1, hfd], by rw [h1, hfd] at *; exact hle⟩
    · obtain ⟨w', hw', hp⟩ := ih f h2
      exact ⟨w', List.mem_cons_of_mem _ hw', hp⟩

theorem signalWaits_kept_valid (s v now : Nat) :
    ∀ waits : List SyncWait, ∀ w' ∈ (signalWaits s v now waits).1,
      now ≤ w'.valid_before := by
  intro waits
  induction waits with
  | nil =>
    intro w' hw'
    simp [signalWaits] at hw'
  | cons w rest ih =>
    intro w' hw'
    simp only [signalWaits] at hw'
    rcases List.mem_append.mp hw' with h1 | h2
    · cases hk : (processWait s v now w).1 with
      | none =>
        rw [hk] at h1
        simp at h1
      | some wk =>
        rw [hk] at h1
        simp at h1
        rw [h1]
        exact processWait_kept_valid s v now w wk hk
    · exact ih w' h2

/-- C8: an expired wait is never notified.  During a `vtest_signal_sync`
call, every fd written with the ready token belongs to a wait whose
deadline had not elapsed (`now ≤ valid_before`) at the walk's time
snapshot, and — whenever the walk actually runs (the value strictly
increased) — every wait remaining on the list afterwards is unexpired:
expired waits are removed and freed without their fd ever being
written. -/
theorem C8_expired_wait_never_notified (st : SyncSt) (s v now : Nat) :
    (∀ f ∈ (vtest_signal_sync st s v now).2,
      ∃ w ∈ st.waits, w.fd = f ∧ now ≤ w.valid_before) ∧
    (syncValue st.syncs s < v →
      ∀ w' ∈ (vtest_signal_sync st s v now).1.waits, now ≤ w'.valid_before) := by
  unfold vtest_signal_sync
  by_cases hle : v ≤ syncValue st.syncs s
  · rw [if_pos hle]
    exact ⟨fun f hf => absurd hf (by simp), fun hlt => absurd hle (by omega)⟩
  · rw [if_neg hle]
    dsimp only
    exact ⟨signalWaits_notifs s v now st.waits,
      fun _ => signalWaits_kept_valid s v now st.waits⟩

/-- C8 witness: signaling sync 1 to 1 at time 10 notifies only fd 7
(the unexpired wait) and leaves no expired wait on the list. -/
theorem C8_expired_wait_never_notified_witness :
    (∃ w ∈ c8St.waits, w.fd = 7 ∧ 10 ≤ w.valid_before) ∧
    (∀ w' ∈ (vtest_signal_sync c8St 1 1 10).1.waits, 10 ≤ w'.valid_before) :=
  ⟨(C8_expired_wait_never_notified c8St 1 1 10).1 7 (by decide),
    (C8_expired_wait_never_notified c8St 1 1 10).2 (by decide)⟩

theorem scanSlots_marked (s v cnt : Nat) (anyf : Bool) :
    ∀ (slots : List WaitSlot) (sc : Nat),
      ∀ sl' ∈ (scanSlots s v cnt anyf slots sc).1, sl'.signaled = true →
        (sl' ∈ slots ∧ sl'.signaled = true) ∨ (sl'.sync = s ∧ sl'.threshold ≤ v) := by
  intro slots
  induction slots with
  | nil =>
    intro sc sl' hm
    simp [scanSlots] at hm
  | cons sl rest ih =>
    intro sc sl' hm hsig
    by_cases hc : (!sl.signaled && sl.sync == s && decide (sl.threshold ≤ v)) = true
    · have hcc := hc
      simp only [Bool.and_eq_true, beq_iff_eq, decide_eq_true_eq] at hcc
      by_cases hrdy : (sc + 1 == cnt || anyf) = true
      · simp only [scanSlots, hc, if_true, hrdy] at hm
        rcases List.mem_cons.mp hm with hhd | htl
        · right
          rw [hhd]
          exact ⟨hcc.1.2, hcc.2⟩
        · left
          exact ⟨List.mem_cons_of_mem _ htl, hsig⟩
      · rw [Bool.not_eq_true] at hrdy
        simp only [scanSlots, hc, if_true, hrdy, Bool.false_eq_true, if_false] at hm
        rcases List.mem_cons.mp hm with hhd | htl
        · right
          rw [hhd]
          exact ⟨hcc.1.2, hcc.2⟩
        · rcases ih (sc + 1) sl' htl hsig with ⟨hin, hs'⟩ | hr
          · exact Or.inl ⟨List.mem_cons_of_mem _ hin, hs'⟩
          · exact Or.inr hr
    · rw [Bool.not_eq_true] at hc
      simp only [scanSlots, hc, Bool.false_eq_true, if_false] at hm
      rcases List.mem_cons.mp hm with hhd | htl
      · left
        rw [hhd] at hsig ⊢
        exact ⟨List.mem_cons_self _ _, hsig⟩
      · rcases ih sc sl' htl hsig with ⟨hin, hs'⟩ | hr
        · exact Or.inl ⟨List.mem_cons_of_mem _ hin, hs'⟩
        · exact Or.inr hr

theorem scanSlots_ready (s v cnt : Nat) (anyf : Bool) :
    ∀ (slots : List WaitSlot) (sc : Nat),
      (scanSlots s v cnt anyf slots sc).2.2 = true →
        ((scanSlots s v cnt anyf slots sc).2.1 = cnt ∨
          (anyf = true ∧ sc < (scanSlots s v cnt anyf slots sc).2.1)) := by
  intro slots
  induction slots with
  | nil =>
    intro sc hr
    simp [scanSlots] at hr
  | cons sl rest ih =>
    intro sc hr
    by_cases hc : (!sl.signaled && sl.sync == s && decide (sl.threshold ≤ v)) = true
    · by_cases hrdy : (sc + 1 == cnt || anyf) = true
      · simp only [scanSlots, hc, if_true, hrdy]
        rcases Bool.or_eq_true_iff.mp hrdy with hcnt | hany
        · exact Or.inl (by simpa using hcnt)
        · exact Or.inr ⟨hany, by omega⟩
      · rw [Bool.not_eq_true] at hrdy
        simp only [scanSlots, hc, if_true, hrdy, Bool.false_eq_true, if_false] at hr ⊢
        rcases ih (sc + 1) hr with hcnt | ⟨hany, hlt⟩
        · exact Or.inl hcnt
        · exact Or.inr ⟨hany, by omega⟩
    · rw [Bool.not_eq_true] at hc
      simp only [scanSlots, hc, Bool.false_eq_true, if_false] at hr ⊢
      exact ih sc hr

theorem signal_sync_value (st : SyncSt) (s v now x : Nat)
    (hs : hasSync st.syncs s = true) :
    syncValue (vtest_signal_sync st s v now).1.syncs x =
      if x = s then v else syncValue st.syncs x := by
  unfold vtest_signal_sync
  by_cases hle : v ≤ syncValue st.syncs s
  · rw [if_pos hle]
    by_cases hx : x = s
    · subst hx
      simp [syncValue_setSyncValue_self st.syncs x v hs]
    · simp [hx, syncValue_setSyncValue_other st.syncs s v x hx]
  · rw [if_neg hle]
    dsimp only
    rw [syncValue_applyUnrefs]
    by_cases hx : x = s
    · subst hx
      simp [syncValue_setSyncValue_self st.syncs x v hs]
    · simp [hx, syncValue_setSyncValue_other st.syncs s v x hx]

/-- C2 counterexample: signal sync 1 to 5 (slot (1,5) is marked), then
write sync 1 DOWN to 2 (the non-monotonic assignment of
`vtest_signal_sync`), then signal sync 2 to 3: the wait is detached and
its fd 7 written — but at that moment the already-marked slot (1,5)
does not satisfy `sync.value >= threshold`, since sync 1 holds 2 < 5. -/
theorem C2_counterexample :
    (vtest_signal_sync (vtest_signal_sync c2St0 1 5 10).1 1 2 11).1.waits =
      [⟨7, 0, 1000, [⟨1, 5, true⟩, ⟨2, 3, false⟩], 1⟩] ∧
    (vtest_signal_sync (vtest_signal_sync (vtest_signal_sync c2St0 1 5 10).1 1 2 11).1
      2 3 12).2 = [7] ∧
    (∃ sl ∈ (scanSlots 2 3 2 false [⟨1, 5, true⟩, ⟨2, 3, false⟩] 1).1,
      sl.signaled = true ∧
      syncValue (vtest_signal_sync
          (vtest_signal_sync (vtest_signal_sync c2St0 1 5 10).1 1 2 11).1
          2 3 12).1.syncs sl.sync < sl.threshold) := by
  decide

/-- C2 (amended): during a `vtest_signal_sync` walk a queued wait is
detached and notified (its fd written) exactly when its slot scan makes
it ready, i.e. when `signaled_count` reaches `wait->count` or the ANY
flag is set and at least one slot was newly signaled — and, PROVIDED
the signal does not decrease the sync's value (the monotone case; the
counterexample shows the quirky decreasing write breaks this), every
slot marked signaled satisfies `sync.value ≥ threshold` against the
post-signal heap at that moment. -/
theorem C2_wait_ready_condition (st : SyncSt) (s v now : Nat) (w : SyncWait)
    (hs : hasSync st.syncs s = true)
    (hmono : syncValue st.syncs s ≤ v)
    (hgood : ∀ sl ∈ w.slots, sl.signaled = true →
      sl.threshold ≤ syncValue st.syncs sl.sync) :
    ((processWait s v now w).2.2 = some w.fd ↔
      (now ≤ w.valid_before ∧
        (scanSlots s v w.slots.length (anyFlagSet w.flags)
          w.slots w.signaled_count).2.2 = true)) ∧
    ((scanSlots s v w.slots.length (anyFlagSet w.flags)
        w.slots w.signaled_count).2.2 = true →
      ((scanSlots s v w.slots.length (anyFlagSet w.flags)
          w.slots w.signaled_count).2.1 = w.slots.length ∨
        (anyFlagSet w.flags = true ∧ w.signaled_count <
          (scanSlots s v w.slots.length (anyFlagSet w.flags)
            w.slots w.signaled_count).2.1))) ∧
    (∀ sl ∈ (scanSlots s v w.slots.length (anyFlagSet w.flags)
        w.slots w.signaled_count).1,
      sl.signaled = true →
      sl.threshold ≤ syncValue (vtest_signal_sync st s v now).1.syncs sl.sync) := by
  refine ⟨?_, scanSlots_ready s v w.slots.length (anyFlagSet w.flags) w.slots
    w.signaled_count, ?_⟩
  · unfold processWait
    by_cases hexp : w.valid_before < now
    · rw [if_pos hexp]
      constructor
      · intro hc
        simp at hc
      · rintro ⟨hle, _⟩
        omega
    · rw [if_neg hexp]
      dsimp only
      by_cases hr : (scanSlots s v w.slots.length (anyFlagSet w.flags)
          w.slots w.signaled_count).2.2 = true
      · rw [hr]
        simp [Nat.not_lt.mp hexp, hr]
      · rw [Bool.not_eq_true] at hr
        rw [hr]
        simp [hr]
  · intro sl hm hsig
    rw [signal_sync_value st s v now sl.sync hs]
    rcases scanSlots_marked s v w.slots.length (anyFlagSet w.flags) w.slots
        w.signaled_count sl hm hsig with ⟨hin, hold⟩ | ⟨hsync, hth⟩
    · have hb := hgood sl hin hold
      by_cases hx : sl.sync = s
      · rw [if_pos hx]
        rw [hx] at hb
        omega
      · rw [if_neg hx]
        exact hb
    · rw [hsync, if_pos rfl]
      exact hth

/-- C2 witness: sync 1 at value 0, an ALL-mode wait on (sync 1,
threshold 1); signaling value 1 at time 10 makes the scan ready and the
wait is notified with every marked slot meeting its threshold. -/
theorem C2_wait_ready_condition_witness :
    (processWait 1 1 10 c2Wait2).2.2 = some c2Wait2.fd ∧
    (∀ sl ∈ (scanSlots 1 1 c2Wait2.slots.length (anyFlagSet c2Wait2.flags)
        c2Wait2.slots c2Wait2.signaled_count).1,
      sl.signaled = true →
      sl.threshold ≤ syncValue (vtest_signal_sync c2St2 1 1 10).1.syncs sl.sync) := by
  have hc := C2_wait_ready_condition c2St2 1 1 10 c2Wait2 (by decide) (by decide)
    (by decide)
  exact ⟨hc.1.mpr ⟨by decide, by decide⟩, hc.2.2⟩
